import Mathlib

/-!
Shallow embedding of the ClaudeCodeCoach health-check core:
the detector registry, the health checker (scoring/aggregation) and the
detectors named by the specification claims.

Paths are modelled as strings (joined with "/"), files as an association
list from path to file data, and parsed JSON as an inductive `Json` type.
-/

namespace C3Health

/-- Severity of a health issue (src/health_checks/base.py). -/
inductive Severity where
  | critical
  | warning
  | info
deriving DecidableEq, Repr

/-- A detected health issue (src/health_checks/base.py, `HealthIssue`). -/
structure HealthIssue where
  rule_id : String
  severity : Severity
  title : String
  message : String
  suggestion : String
  file_path : Option String := none
  fix_prompt : Option String := none
  topic_slug : Option String := none
deriving DecidableEq, Repr

/-- One step of the scoring loop in `HealthChecker._calculate_score`:
subtract 20 for CRITICAL, 10 for WARNING, 5 for INFO. -/
def scoreStep (score : Int) (issue : HealthIssue) : Int :=
  match issue.severity with
  | .critical => score - 20
  | .warning => score - 10
  | .info => score - 5

/-- `HealthChecker._calculate_score` (src/services/health_checker.py):
start at 100, subtract per issue, clamp to [0, 100].
The `total_checks` argument is accepted but unused, as in the source. -/
def calculate_score (issues : List HealthIssue) (total_checks : Nat) : Int :=
  let score := issues.foldl scoreStep 100
  max 0 (min 100 score)

/-- Number of issues in `issues` having severity `sev`. -/
def severityCount (issues : List HealthIssue) (sev : Severity) : Nat :=
  issues.countP (fun i => i.severity == sev)

/-- The scoring fold subtracts exactly the per-severity penalties. -/
lemma foldl_scoreStep (issues : List HealthIssue) (a : Int) :
    issues.foldl scoreStep a =
      a - 20 * (severityCount issues .critical : Int)
        - 10 * (severityCount issues .warning : Int)
        - 5 * (severityCount issues .info : Int) := by
  induction issues generalizing a with
  | nil => simp [severityCount]
  | cons i rest ih =>
    simp only [List.foldl_cons, ih]
    unfold severityCount scoreStep
    cases h : i.severity <;>
      simp only [List.countP_cons, h] <;> push_cast <;> ring_nf <;> simp <;> ring

/-- Sample issues used to instantiate theorems on concrete inputs. -/
def sampleCritical : HealthIssue :=
  { rule_id := "sample-critical", severity := .critical, title := "c", message := "m",
    suggestion := "s" }

def sampleWarning : HealthIssue :=
  { rule_id := "sample-warning", severity := .warning, title := "w", message := "m",
    suggestion := "s" }

def sampleInfo : HealthIssue :=
  { rule_id := "sample-info", severity := .info, title := "i", message := "m",
    suggestion := "s" }

/-- C1: for every issue list and detector count `n`, `_calculate_score` equals
`max 0 (min 100 (100 - 20*#CRITICAL - 10*#WARNING - 5*#INFO))`; it depends only
on the severity multiset (it is invariant under permutation of the issues) and
not on the detector count. -/
theorem calculate_score_closed_form (issues issues' : List HealthIssue) (n m : Nat)
    (h : issues.Perm issues') :
    calculate_score issues n =
      max 0 (min 100 (100 - 20 * (severityCount issues .critical : Int)
        - 10 * (severityCount issues .warning : Int)
        - 5 * (severityCount issues .info : Int))) ∧
    calculate_score issues n = calculate_score issues' m := by
  constructor
  · unfold calculate_score
    rw [foldl_scoreStep]
  · unfold calculate_score
    rw [foldl_scoreStep, foldl_scoreStep]
    unfold severityCount
    rw [h.countP_eq, h.countP_eq, h.countP_eq]

/-- Witness for C1 at a concrete pair of permuted issue lists and distinct
detector counts. -/
theorem calculate_score_closed_form_witness :
    calculate_score [sampleCritical, sampleWarning] 2 =
      max 0 (min 100 (100
        - 20 * (severityCount [sampleCritical, sampleWarning] .critical : Int)
        - 10 * (severityCount [sampleCritical, sampleWarning] .warning : Int)
        - 5 * (severityCount [sampleCritical, sampleWarning] .info : Int))) ∧
    calculate_score [sampleCritical, sampleWarning] 2 =
      calculate_score [sampleWarning, sampleCritical] 7 :=
  calculate_score_closed_form [sampleCritical, sampleWarning]
    [sampleWarning, sampleCritical] 2 7 (List.Perm.swap sampleWarning sampleCritical [])

/-- Parsed JSON values (the result of `json.load`). -/
inductive Json where
  | null
  | bool (b : Bool)
  | num (n : Int)
  | str (s : String)
  | arr (items : List Json)
  | obj (fields : List (String × Json))

/-- The parsed-config map handed to detectors (a Python dict keyed by
config file name). -/
abbrev Config := List (String × Json)

/-- A health report (src/services/health_checker.py, `HealthReport`). -/
structure HealthReport where
  project_path : String
  score : Int
  issues : List HealthIssue
  detectors_run : Nat
  has_critical : Bool
  has_warnings : Bool
deriving DecidableEq, Repr

/-- Construction of a `HealthReport`: the dataclass accepts caller-supplied
`has_critical` / `has_warnings` (defaulting to `false`), then
`__post_init__` recomputes both from the issue list, discarding the
caller's values. -/
def mkHealthReport (project_path : String) (score : Int) (issues : List HealthIssue)
    (detectors_run : Nat) (has_critical has_warnings : Bool := false) : HealthReport :=
  { project_path := project_path
    score := score
    issues := issues
    detectors_run := detectors_run
    has_critical := issues.any (fun issue => issue.severity == Severity.critical)
    has_warnings := issues.any (fun issue => issue.severity == Severity.warning) }

/-- A registered detector instance as the checker sees it: its `rule_id` and
its `check` method. A raising `check` is modelled by `Except.error`;
a normal return is `Except.ok` of `some issue` or `none`. -/
structure Detector where
  rule_id : String
  check : String → Config → Except String (Option HealthIssue)

/-- The health checker holds the detector instances obtained from the
registry at construction time. -/
structure HealthChecker where
  detectors : List Detector

/-- One iteration of the detector loop in `HealthChecker.check_project`:
increment `detectors_run` unconditionally, append the issue when `check`
returns one, swallow (print and continue) when it raises. -/
def runDetectorStep (project_path : String) (config : Config)
    (acc : List HealthIssue × Nat) (d : Detector) : List HealthIssue × Nat :=
  match d.check project_path config with
  | .ok (some issue) => (acc.1 ++ [issue], acc.2 + 1)
  | .ok none => (acc.1, acc.2 + 1)
  | .error _ => (acc.1, acc.2 + 1)

/-- `HealthChecker.check_project` (src/services/health_checker.py):
default `config=None` to the empty dict, run every detector collecting
non-absent issues, compute the score, construct the report. -/
def HealthChecker.check_project (hc : HealthChecker) (project_path : String)
    (config : Option Config := none) : HealthReport :=
  let config := config.getD []
  let run := hc.detectors.foldl (runDetectorStep project_path config) ([], 0)
  let score := calculate_score run.1 run.2
  mkHealthReport project_path score run.1 run.2

/-- The issue a detector contributes to the report: `some` exactly when its
`check` returns an issue without raising. -/
def detectorResult (project_path : String) (config : Config) (d : Detector) :
    Option HealthIssue :=
  match d.check project_path config with
  | .ok (some issue) => some issue
  | _ => none

/-- The detector fold collects exactly the non-absent, non-raising results in
order, and counts every detector. -/
lemma foldl_runDetectorStep (project_path : String) (config : Config)
    (ds : List Detector) (issues : List HealthIssue) (k : Nat) :
    ds.foldl (runDetectorStep project_path config) (issues, k) =
      (issues ++ ds.filterMap (detectorResult project_path config), k + ds.length) := by
  induction ds generalizing issues k with
  | nil => simp
  | cons d rest ih =>
    rw [List.foldl_cons]
    cases h : d.check project_path config with
    | ok o =>
      cases o with
      | some issue =>
        have h1 : runDetectorStep project_path config (issues, k) d =
            (issues ++ [issue], k + 1) := by
          unfold runDetectorStep; rw [h]
        have h2 : detectorResult project_path config d = some issue := by
          unfold detectorResult; rw [h]
        rw [h1, ih]
        simp_arith [List.filterMap_cons, h2, List.append_assoc]
      | none =>
        have h1 : runDetectorStep project_path config (issues, k) d = (issues, k + 1) := by
          unfold runDetectorStep; rw [h]
        have h2 : detectorResult project_path config d = none := by
          unfold detectorResult; rw [h]
        rw [h1, ih]
        simp_arith [List.filterMap_cons, h2]
    | error e =>
      have h1 : runDetectorStep project_path config (issues, k) d = (issues, k + 1) := by
        unfold runDetectorStep; rw [h]
      have h2 : detectorResult project_path config d = none := by
        unfold detectorResult; rw [h]
      rw [h1, ih]
      simp_arith [List.filterMap_cons, h2]

/-- Characterization of `check_project`: the report's fields in terms of the
individual detectors' results. -/
lemma check_project_spec (hc : HealthChecker) (project_path : String)
    (config : Option Config) :
    hc.check_project project_path config =
      mkHealthReport project_path
        (calculate_score
          (hc.detectors.filterMap (detectorResult project_path (config.getD [])))
          hc.detectors.length)
        (hc.detectors.filterMap (detectorResult project_path (config.getD [])))
        hc.detectors.length := by
  simp only [HealthChecker.check_project]
  rw [foldl_runDetectorStep]
  simp

/-- Whether a detector's `check` raises on the given arguments. -/
def raisesOn (d : Detector) (project_path : String) (config : Config) : Bool :=
  match d.check project_path config with
  | .error _ => true
  | .ok _ => false

/-- Elements mapped to `none` may be filtered out before a `filterMap`. -/
lemma filterMap_eq_filterMap_filter {α β : Type} (f : α → Option β) (p : α → Bool)
    (l : List α) (h : ∀ x ∈ l, p x = false → f x = none) :
    l.filterMap f = (l.filter p).filterMap f := by
  induction l with
  | nil => simp
  | cons a rest ih =>
    have ih' := ih (fun x hx => h x (List.mem_cons_of_mem a hx))
    by_cases hp : p a = true
    · simp [List.filter_cons, hp, List.filterMap_cons, ih']
    · have hf : f a = none := h a (List.mem_cons_self a rest) (by simpa using hp)
      simp [List.filter_cons, hp, List.filterMap_cons, hf, ih']

/-- A raising detector contributes no issue. -/
lemma detectorResult_eq_none_of_raisesOn (d : Detector) (project_path : String)
    (config : Config) (h : raisesOn d project_path config = true) :
    detectorResult project_path config d = none := by
  unfold raisesOn at h
  unfold detectorResult
  cases hc : d.check project_path config with
  | ok o => rw [hc] at h; simp at h
  | error e => rfl

/-- C2: when some registered detector's `check` raises, `check_project` still
returns a report: `detectors_run` counts every detector including the raising
ones, the issue list is exactly the surviving (non-raising) detectors'
issues — so contains nothing from a raising detector — and the score is
computed from those surviving issues alone. -/
theorem check_project_fault_isolation (hc : HealthChecker) (project_path : String)
    (config : Option Config)
    (h : ∃ d ∈ hc.detectors, raisesOn d project_path (config.getD []) = true) :
    (hc.check_project project_path config).detectors_run = hc.detectors.length ∧
    (hc.check_project project_path config).issues =
      (hc.detectors.filter
          (fun d => !raisesOn d project_path (config.getD []))).filterMap
        (detectorResult project_path (config.getD [])) ∧
    (hc.check_project project_path config).score =
      calculate_score
        ((hc.detectors.filter
            (fun d => !raisesOn d project_path (config.getD []))).filterMap
          (detectorResult project_path (config.getD [])))
        (hc.check_project project_path config).detectors_run := by
  clear h
  have hfilter :
      hc.detectors.filterMap (detectorResult project_path (config.getD [])) =
        (hc.detectors.filter
            (fun d => !raisesOn d project_path (config.getD []))).filterMap
          (detectorResult project_path (config.getD [])) := by
    apply filterMap_eq_filterMap_filter
    intro d _ hd
    apply detectorResult_eq_none_of_raisesOn
    simpa using hd
  rw [check_project_spec]
  refine ⟨rfl, ?_, ?_⟩
  · simpa [mkHealthReport] using hfilter
  · simp only [mkHealthReport]
    rw [hfilter]

/-- Detectors used to instantiate theorems on concrete checkers. -/
def alwaysRaisesDetector : Detector :=
  { rule_id := "always-raises", check := fun _ _ => .error "boom" }

def alwaysWarnsDetector : Detector :=
  { rule_id := "always-warns", check := fun _ _ => .ok (some sampleWarning) }

def sampleChecker : HealthChecker :=
  { detectors := [alwaysRaisesDetector, alwaysWarnsDetector] }

/-- Witness for C2 on a concrete checker holding one raising and one
issue-returning detector. -/
theorem check_project_fault_isolation_witness :
    (sampleChecker.check_project "/proj" none).detectors_run =
      sampleChecker.detectors.length ∧
    (sampleChecker.check_project "/proj" none).issues =
      (sampleChecker.detectors.filter
          (fun d => !raisesOn d "/proj" ((none : Option Config).getD []))).filterMap
        (detectorResult "/proj" ((none : Option Config).getD [])) ∧
    (sampleChecker.check_project "/proj" none).score =
      calculate_score
        ((sampleChecker.detectors.filter
            (fun d => !raisesOn d "/proj" ((none : Option Config).getD []))).filterMap
          (detectorResult "/proj" ((none : Option Config).getD [])))
        (sampleChecker.check_project "/proj" none).detectors_run :=
  check_project_fault_isolation sampleChecker "/proj" none
    ⟨alwaysRaisesDetector, by simp [sampleChecker], rfl⟩

/-- C3: a report never has more issues than detectors run: each detector
contributes at most one issue per scan. -/
theorem check_project_issues_le_detectors_run (hc : HealthChecker)
    (project_path : String) (config : Option Config) :
    (hc.check_project project_path config).issues.length ≤
      (hc.check_project project_path config).detectors_run := by
  rw [check_project_spec]
  simpa [mkHealthReport] using
    List.length_filterMap_le (detectorResult project_path (config.getD []))
      hc.detectors

/-- C9: whatever booleans the caller passes, after construction
`has_critical` holds iff some issue is CRITICAL and `has_warnings` holds iff
some issue is WARNING — both recomputed from the issue list. -/
theorem mkHealthReport_derived_booleans (project_path : String) (score : Int)
    (issues : List HealthIssue) (detectors_run : Nat) (hcrit hwarn : Bool) :
    ((mkHealthReport project_path score issues detectors_run hcrit hwarn).has_critical
        = true ↔ ∃ i ∈ issues, i.severity = Severity.critical) ∧
    ((mkHealthReport project_path score issues detectors_run hcrit hwarn).has_warnings
        = true ↔ ∃ i ∈ issues, i.severity = Severity.warning) := by
  unfold mkHealthReport
  simp [List.any_eq_true]

/-- C10: calling `check_project` with `config = None` is identical to calling
it with an explicit empty dict, and every detector then receives the empty
dict as its config. -/
theorem check_project_none_config (hc : HealthChecker) (project_path : String) :
    hc.check_project project_path none = hc.check_project project_path (some []) ∧
    (hc.check_project project_path none).issues =
      hc.detectors.filterMap (detectorResult project_path []) := by
  refine ⟨rfl, ?_⟩
  rw [check_project_spec]
  rfl

/-- `HealthChecker.get_score_label` (src/services/health_checker.py): text
label for a health score; the method ignores `self`. -/
def HealthChecker.get_score_label (score : Int) : String :=
  if score ≥ 90 then "Excellent"
  else if score ≥ 70 then "Good"
  else if score ≥ 50 then "Fair"
  else "Needs Attention"

/-- The score label computed inline by `StatusUpdater.append_scan_result`
(src/services/status_updater.py, lines 29-37). -/
def StatusUpdater.scan_result_label (score : Int) : String :=
  if score ≥ 80 then "Excellent"
  else if score ≥ 60 then "Good"
  else if score ≥ 40 then "Fair"
  else "Needs Attention"

/-- The canonical score-interpretation table as the spec states it:
>=90 Excellent, 70-89 Good, 50-69 Fair, <50 Needs Attention. -/
def canonicalScoreLabel (score : Int) : String :=
  if score ≥ 90 then "Excellent"
  else if score ≥ 70 then "Good"
  else if score ≥ 50 then "Fair"
  else "Needs Attention"

/-- Counterexample to C6: at score 85 the two labelers disagree —
`get_score_label` says "Good" (the canonical table's answer) while
`append_scan_result` labels it "Excellent". -/
theorem score_label_mismatch_at_85 :
    HealthChecker.get_score_label 85 = "Good" ∧
    StatusUpdater.scan_result_label 85 = "Excellent" ∧
    HealthChecker.get_score_label 85 ≠ StatusUpdater.scan_result_label 85 := by
  refine ⟨rfl, rfl, ?_⟩
  decide

/-- C6 (amended): `get_score_label` follows the canonical 90/70/50 table, but
the label inside `append_scan_result` follows an 80/60/40 split with the same
four labels; the two agree exactly when the score is at least 90, in
[70, 80), in [50, 60), or below 40. -/
theorem score_label_tables (score : Int) :
    HealthChecker.get_score_label score = canonicalScoreLabel score ∧
    (StatusUpdater.scan_result_label score = canonicalScoreLabel score ↔
      (90 ≤ score ∨ (70 ≤ score ∧ score < 80) ∨ (50 ≤ score ∧ score < 60) ∨
        score < 40)) := by
  refine ⟨rfl, ?_⟩
  unfold StatusUpdater.scan_result_label canonicalScoreLabel
  split_ifs <;>
    first
      | exact ⟨fun _ => by omega, fun _ => rfl⟩
      | exact ⟨fun hEq => absurd hEq (by decide), fun hd => absurd hd (by omega)⟩

/-- A detector class as held by the registry: applying it (Python `cls()`)
constructs a detector instance. -/
def DetectorClass := Unit → Detector

/-- `register` (src/health_checks/__init__.py): the decorator appends the
class to the module-level registry unconditionally and returns the class.
The registry list is threaded explicitly. -/
def register (detector_class : DetectorClass) (registry : List DetectorClass) :
    DetectorClass × List DetectorClass :=
  (detector_class, registry ++ [detector_class])

/-- `get_all_detectors` (src/health_checks/__init__.py): one constructor call
per registered class, in registration order. -/
def get_all_detectors (registry : List DetectorClass) : List Detector :=
  registry.map (fun cls => cls ())

/-- C7: `register` appends unconditionally; `get_all_detectors` returns one
constructed instance per registration in registration order (position `i` of
the result is the instance built by the class at position `i` of the
registry), and registering the same class twice yields two instances. -/
theorem register_get_all_detectors (registry : List DetectorClass)
    (c : DetectorClass) :
    (register c registry).2 = registry ++ [c] ∧
    (get_all_detectors registry).length = registry.length ∧
    (∀ i : Nat, (get_all_detectors registry)[i]? =
      registry[i]?.map (fun cls => cls ())) ∧
    get_all_detectors ((register c (register c registry).2).2) =
      get_all_detectors registry ++ [c (), c ()] := by
  refine ⟨rfl, ?_, ?_, ?_⟩
  · simp [get_all_detectors]
  · intro i
    simp [get_all_detectors, List.getElem?_map]
  · simp [register, get_all_detectors]

/-- Data stored at a path of the modelled filesystem.
`lines ls` is a readable text file whose lines (newline terminators
stripped) are `ls`; `jsonData j` is a readable file whose JSON parse
yields `j`; `unreadable` is a file that exists but whose read (or parse)
raises. -/
inductive FileData where
  | lines (ls : List String)
  | jsonData (j : Json)
  | unreadable

/-- The filesystem a detector inspects: an association list from absolute
path to file data. -/
structure FS where
  entries : List (String × FileData)

/-- `Path.exists` on the modelled filesystem. -/
def FS.pathExists (fs : FS) (p : String) : Bool :=
  fs.entries.any (fun e => e.1 == p)

/-- `open(p).readlines()`: the file's lines when `p` is a readable text
file, `none` when it is missing or reading raises. -/
def FS.readLines (fs : FS) (p : String) : Option (List String) :=
  match fs.entries.find? (fun e => e.1 == p) with
  | some (_, .lines ls) => some ls
  | _ => none

/-- `json.load(open(p))`: the parsed value when `p` is a readable JSON
file, `none` when it is missing or reading/parsing raises. -/
def FS.readJson (fs : FS) (p : String) : Option Json :=
  match fs.entries.find? (fun e => e.1 == p) with
  | some (_, .jsonData j) => some j
  | _ => none

namespace BloatedClaudeMdDetector

/-- src/health_checks/critical/bloated_claude_md.py, class attributes. -/
def rule_id : String := "bloated_claude_md"

def title : String := "CLAUDE.md is too large"

def fix_prompt : String :=
  "My CLAUDE.md file is too large and needs to be refactored for better performance.\n\n" ++
  "Please help me restructure my project instructions:\n\n" ++
  "1. **Analyze my current CLAUDE.md** - identify what content should stay vs. move\n" ++
  "2. **Create a slim CLAUDE.md** (under 50 lines) with only:\n" ++
  "   - Project overview (2-3 sentences)\n" ++
  "   - Core architecture patterns\n" ++
  "   - Critical conventions\n" ++
  "   - Links to Skills for detailed workflows\n\n" ++
  "3. **Create Skills** for detailed content:\n" ++
  "   - Create .claude/skills/ directory if needed\n" ++
  "   - Move step-by-step guides to individual Skill files\n" ++
  "   - Create skill files like: commit.md, feature-dev.md, etc.\n" ++
  "   - Use progressive disclosure - Claude loads Skills only when needed\n\n" ++
  "4. **Update my CLAUDE.md** with references to the new Skills\n\n" ++
  "Example structure:\n" ++
  "```\n" ++
  "CLAUDE.md: \"For commit workflow, use /commit skill\"\n" ++
  ".claude/skills/commit.md: [detailed commit instructions]\n" ++
  "```\n\n" ++
  "This keeps my project context lean while maintaining detailed guidance."

def suggestion : String :=
  "Move detailed documentation to Skills instead of CLAUDE.md. " ++
  "Keep CLAUDE.md under 50 lines by focusing on:\n" ++
  "  • Project overview (2-3 sentences)\n" ++
  "  • Architecture patterns\n" ++
  "  • Critical conventions\n" ++
  "  • Links to Skills for detailed workflows\n\n" ++
  "Skills are better for step-by-step guides and detailed procedures."

def criticalMessage (line_count : Nat) : String :=
  s!"Your CLAUDE.md has {line_count} lines. " ++
  "This is critically too large and will impact Claude's ability to process your project efficiently."

def warningMessage (line_count : Nat) : String :=
  s!"Your CLAUDE.md has {line_count} lines. " ++
  "Consider trimming it down for better performance."

/-- The issue the detector constructs for the given severity, message and
candidate path. -/
def mkIssue (sev : Severity) (message : String) (claude_md_path : String) :
    HealthIssue :=
  { rule_id := rule_id, severity := sev, title := title, message := message,
    suggestion := suggestion, fix_prompt := some fix_prompt,
    file_path := some claude_md_path,
    topic_slug := some "claude-md-best-practices" }

/-- The candidate loop of `BloatedClaudeMdDetector.check`: skip a candidate
that does not exist or whose read raises; on the first readable candidate,
return CRITICAL above 100 lines, WARNING above 50, otherwise no issue — in
every case without looking at later candidates. -/
def checkCandidates (fs : FS) : List String → Option HealthIssue
  | [] => none
  | p :: rest =>
    if fs.pathExists p then
      match fs.readLines p with
      | none => checkCandidates fs rest
      | some ls =>
        if ls.length > 100 then some (mkIssue .critical (criticalMessage ls.length) p)
        else if ls.length > 50 then some (mkIssue .warning (warningMessage ls.length) p)
        else none
    else checkCandidates fs rest

/-- The two candidate locations, in the declared order. -/
def candidates (project_path : String) : List String :=
  [project_path ++ "/.claude/CLAUDE.md", project_path ++ "/CLAUDE.md"]

/-- `BloatedClaudeMdDetector.check`. The `config` argument is unused, as in
the source. -/
def check (fs : FS) (project_path : String) (config : Config) :
    Option HealthIssue :=
  checkCandidates fs (candidates project_path)

/-- The first candidate path that exists and is readable, with its lines. -/
def firstReadableCandidate (fs : FS) : List String → Option (String × List String)
  | [] => none
  | p :: rest =>
    if fs.pathExists p then
      match fs.readLines p with
      | some ls => some (p, ls)
      | none => firstReadableCandidate fs rest
    else firstReadableCandidate fs rest

/-- The candidate loop acts on the first existing, readable candidate. -/
lemma checkCandidates_of_firstReadable (fs : FS) (paths : List String)
    (p : String) (ls : List String)
    (h : firstReadableCandidate fs paths = some (p, ls)) :
    checkCandidates fs paths =
      if ls.length > 100 then some (mkIssue .critical (criticalMessage ls.length) p)
      else if ls.length > 50 then some (mkIssue .warning (warningMessage ls.length) p)
      else none := by
  induction paths with
  | nil => simp [firstReadableCandidate] at h
  | cons q rest ih =>
    unfold firstReadableCandidate at h
    unfold checkCandidates
    by_cases hex : fs.pathExists q = true
    · simp only [hex, if_true] at h ⊢
      cases hrl : fs.readLines q with
      | none => rw [hrl] at h; exact ih h
      | some ls' =>
        rw [hrl] at h
        simp only [Option.some.injEq, Prod.mk.injEq] at h
        obtain ⟨hq, hls⟩ := h
        subst hq hls
        rfl
    · simp only [Bool.not_eq_true] at hex
      simp only [hex, Bool.false_eq_true, if_false] at h ⊢
      exact ih h

end BloatedClaudeMdDetector

/-- C4: on the first existing, readable CLAUDE.md candidate (checked at
`.claude/CLAUDE.md` then `CLAUDE.md`) with `n` lines, the detector returns
absent when `n ≤ 50`, a WARNING issue when `50 < n ≤ 100`, and a CRITICAL
issue when `n > 100`, the issue carrying that candidate's path. -/
theorem bloated_claude_md_thresholds (fs : FS) (project_path : String)
    (config : Config) (p : String) (ls : List String)
    (h : BloatedClaudeMdDetector.firstReadableCandidate fs
        (BloatedClaudeMdDetector.candidates project_path) = some (p, ls)) :
    (ls.length ≤ 50 → BloatedClaudeMdDetector.check fs project_path config = none) ∧
    (50 < ls.length → ls.length ≤ 100 →
      BloatedClaudeMdDetector.check fs project_path config =
        some (BloatedClaudeMdDetector.mkIssue .warning
          (BloatedClaudeMdDetector.warningMessage ls.length) p)) ∧
    (100 < ls.length →
      BloatedClaudeMdDetector.check fs project_path config =
        some (BloatedClaudeMdDetector.mkIssue .critical
          (BloatedClaudeMdDetector.criticalMessage ls.length) p)) := by
  have hc := BloatedClaudeMdDetector.checkCandidates_of_firstReadable fs
    (BloatedClaudeMdDetector.candidates project_path) p ls h
  unfold BloatedClaudeMdDetector.check
  rw [hc]
  refine ⟨?_, ?_, ?_⟩
  · intro h50
    rw [if_neg (by omega), if_neg (by omega)]
  · intro h50 h100
    rw [if_neg (by omega), if_pos (by omega)]
  · intro h100
    rw [if_pos (by omega)]

/-- A concrete filesystem holding a 51-line CLAUDE.md at the project root. -/
def fiftyOneLineFS : FS :=
  { entries := [("/proj/CLAUDE.md", FileData.lines (List.replicate 51 "line"))] }

/-- Witness for C4: a 51-line CLAUDE.md yields the WARNING issue. -/
theorem bloated_claude_md_thresholds_witness :
    BloatedClaudeMdDetector.check fiftyOneLineFS "/proj" [] =
      some (BloatedClaudeMdDetector.mkIssue .warning
        (BloatedClaudeMdDetector.warningMessage (List.replicate 51 "line").length)
        "/proj/CLAUDE.md") :=
  (bloated_claude_md_thresholds fiftyOneLineFS "/proj" [] "/proj/CLAUDE.md"
      (List.replicate 51 "line") (by decide)).2.1 (by decide) (by decide)

namespace SecretsExposedDetector

/-- src/health_checks/critical/secrets_exposed.py, class attributes. -/
def rule_id : String := "secrets-exposed"

def title : String := "Secrets may be exposed"

def fix_prompt : String :=
  "URGENT: My project has sensitive files that are not protected by .gitignore.\n\n" ++
  "Please help me secure these files:\n\n" ++
  "1. Add the appropriate patterns to .gitignore\n" ++
  "2. If any secrets are already committed, tell me how to:\n" ++
  "   - Remove them from git history (using git filter-branch or BFG Repo-Cleaner)\n" ++
  "   - Rotate the exposed credentials\n" ++
  "3. Create .env.example showing required variables without values\n" ++
  "4. Document proper credential management in my README or CLAUDE.md\n\n" ++
  "After adding to .gitignore, run:\n" ++
  "   git add .gitignore\n" ++
  "   git commit -m \"docs: add secret files to gitignore\"\n\n" ++
  "NEVER commit the actual .env or settings.local.json files."

/-- Files that should be in .gitignore if they exist, in the checked order. -/
def sensitive_files : List String :=
  [".env", ".claude/settings.local.json"]

/-- The set of .gitignore patterns: each line that is non-blank after
stripping and does not start with `#`, stripped. A missing or unreadable
.gitignore contributes no patterns. -/
def gitignorePatterns (fs : FS) (project_path : String) : List String :=
  match fs.readLines (project_path ++ "/.gitignore") with
  | some ls =>
    (ls.filter (fun line => line.trim != "" && !(line.startsWith "#"))).map
      String.trim
  | none => []

/-- The issue constructed for an unprotected sensitive file. -/
def mkIssue (project_path file_pattern : String) : HealthIssue :=
  { rule_id := rule_id, severity := .critical, title := title,
    message := "Secrets may be exposed - " ++ file_pattern ++ " is not in .gitignore",
    suggestion := "Add '" ++ file_pattern ++ "' to .gitignore to prevent committing secrets",
    fix_prompt := some fix_prompt,
    file_path := some (project_path ++ "/" ++ file_pattern),
    topic_slug := some "credential-management" }

/-- The sensitive-file loop of `SecretsExposedDetector.check`: report the
first sensitive file that exists but whose relative path is not among the
.gitignore patterns. -/
def checkFiles (fs : FS) (project_path : String) (patterns : List String) :
    List String → Option HealthIssue
  | [] => none
  | fp :: rest =>
    if fs.pathExists (project_path ++ "/" ++ fp) then
      if !(patterns.contains fp) then some (mkIssue project_path fp)
      else checkFiles fs project_path patterns rest
    else checkFiles fs project_path patterns rest

/-- `SecretsExposedDetector.check`. The `config` argument is unused, as in
the source. -/
def check (fs : FS) (project_path : String) (config : Config) :
    Option HealthIssue :=
  checkFiles fs project_path (gitignorePatterns fs project_path) sensitive_files

/-- A sensitive file that exists under the root but is not protected by an
exactly matching .gitignore pattern line. -/
def unprotected (fs : FS) (project_path : String) (fp : String) : Bool :=
  fs.pathExists (project_path ++ "/" ++ fp) &&
    !((gitignorePatterns fs project_path).contains fp)

/-- The sensitive-file loop finds the first unprotected file. -/
lemma checkFiles_eq_find (fs : FS) (project_path : String) (fps : List String) :
    checkFiles fs project_path (gitignorePatterns fs project_path) fps =
      (fps.find? (unprotected fs project_path)).map (mkIssue project_path) := by
  induction fps with
  | nil => rfl
  | cons fp rest ih =>
    unfold checkFiles
    rw [List.find?_cons]
    cases hu : unprotected fs project_path fp with
    | true =>
      have hand := hu
      unfold unprotected at hand
      rw [Bool.and_eq_true] at hand
      obtain ⟨hex, hcon⟩ := hand
      simp only [hu, hex, if_true]
      rw [if_pos hcon]
      rfl
    | false =>
      have hand := hu
      unfold unprotected at hand
      simp only [hu]
      by_cases hex : fs.pathExists (project_path ++ "/" ++ fp) = true
      · rw [hex, Bool.true_and, Bool.not_eq_false'] at hand
        simp only [hex, if_true]
        rw [if_neg (by rw [hand]; simp)]
        exact ih
      · have hex' : fs.pathExists (project_path ++ "/" ++ fp) = false := by
          cases h' : fs.pathExists (project_path ++ "/" ++ fp) with
          | false => rfl
          | true => exact absurd h' hex
        simp only [hex', Bool.false_eq_true, if_false]
        exact ih

end SecretsExposedDetector

/-- C8: the detector reports exactly the first sensitive file (in the order
`.env` then `.claude/settings.local.json`) that exists under the root and
whose relative path is not an exact stripped, non-comment line of the
root's `.gitignore`; it returns absent iff every existing sensitive file is
so protected, a missing or unreadable `.gitignore` contributes no patterns,
and the reported issue is CRITICAL. -/
theorem secrets_exposed_spec (fs : FS) (project_path : String) (config : Config) :
    SecretsExposedDetector.check fs project_path config =
      ((SecretsExposedDetector.sensitive_files.find?
          (SecretsExposedDetector.unprotected fs project_path)).map
        (SecretsExposedDetector.mkIssue project_path)) ∧
    (SecretsExposedDetector.check fs project_path config = none ↔
      ∀ fp ∈ SecretsExposedDetector.sensitive_files,
        fs.pathExists (project_path ++ "/" ++ fp) = true →
          (SecretsExposedDetector.gitignorePatterns fs project_path).contains fp
            = true) ∧
    (fs.readLines (project_path ++ "/.gitignore") = none →
      SecretsExposedDetector.gitignorePatterns fs project_path = []) ∧
    (∀ issue, SecretsExposedDetector.check fs project_path config = some issue →
      issue.severity = Severity.critical) := by
  have hfind := SecretsExposedDetector.checkFiles_eq_find fs project_path
    SecretsExposedDetector.sensitive_files
  have hcheck : SecretsExposedDetector.check fs project_path config =
      ((SecretsExposedDetector.sensitive_files.find?
          (SecretsExposedDetector.unprotected fs project_path)).map
        (SecretsExposedDetector.mkIssue project_path)) := hfind
  refine ⟨hcheck, ?_, ?_, ?_⟩
  · rw [hcheck]
    rw [Option.map_eq_none', List.find?_eq_none]
    constructor
    · intro h fp hmem hex
      have hfp := h fp hmem
      unfold SecretsExposedDetector.unprotected at hfp
      rw [Bool.not_eq_true, Bool.and_eq_false_iff] at hfp
      cases hfp with
      | inl h1 => rw [hex] at h1; exact absurd h1 (by simp)
      | inr h2 => rwa [Bool.not_eq_false'] at h2
    · intro h fp hmem
      unfold SecretsExposedDetector.unprotected
      rw [Bool.not_eq_true, Bool.and_eq_false_iff]
      by_cases hex : fs.pathExists (project_path ++ "/" ++ fp) = true
      · right
        rw [Bool.not_eq_false']
        exact h fp hmem hex
      · left
        cases h' : fs.pathExists (project_path ++ "/" ++ fp) with
        | false => rfl
        | true => exact absurd h' hex
  · intro hnone
    unfold SecretsExposedDetector.gitignorePatterns
    rw [hnone]
  · intro issue hsome
    rw [hcheck] at hsome
    cases hf : SecretsExposedDetector.sensitive_files.find?
        (SecretsExposedDetector.unprotected fs project_path) with
    | none => rw [hf] at hsome; simp at hsome
    | some fp =>
      rw [hf] at hsome
      simp only [Option.map_some', Option.some.injEq] at hsome
      rw [← hsome]
      rfl

/-- A project with an existing .env and no .gitignore at all. -/
def exposedSecretsFS : FS :=
  { entries := [("/proj/.env", FileData.lines ["SECRET=1"])] }

/-- Witness for C8: with no .gitignore the pattern set is empty, and the
issue reported for the exposed .env is CRITICAL. -/
theorem secrets_exposed_spec_witness :
    SecretsExposedDetector.gitignorePatterns exposedSecretsFS "/proj" = [] ∧
    (SecretsExposedDetector.mkIssue "/proj" ".env").severity = Severity.critical :=
  ⟨(secrets_exposed_spec exposedSecretsFS "/proj" []).2.2.1 rfl,
    (secrets_exposed_spec exposedSecretsFS "/proj" []).2.2.2
      (SecretsExposedDetector.mkIssue "/proj" ".env") rfl⟩

namespace InvalidHookKeysDetector

/-- src/health_checks/warning/invalid_hook_keys.py, class attributes. -/
def rule_id : String := "invalid-hook-keys"

def title : String := "Invalid hook configuration keys"

/-- Valid keys for hook configurations. -/
def VALID_HOOK_KEYS : List String :=
  ["type", "command", "blocking", "successMessage", "errorMessage",
    "filePatterns"]

def fix_prompt : String :=
  "My hook configuration contains invalid keys that Claude Code doesn't recognize.\n\n" ++
  "Valid hook keys are:\n" ++
  "- `type` (required) - hook type (usually \"command\")\n" ++
  "- `command` (required) - shell command to execute\n" ++
  "- `blocking` (optional) - whether to wait for completion\n" ++
  "- `successMessage` (optional) - custom message on success\n" ++
  "- `errorMessage` (optional) - custom message on error\n" ++
  "- `filePatterns` (optional) - file patterns for hooks like Write:format\n\n" ++
  "Please:\n" ++
  "1. Review my .claude/settings.json hooks configuration\n" ++
  "2. Remove any invalid keys like `outputMode`, `enabled`, etc.\n" ++
  "3. Ensure each hook only uses the valid keys listed above\n\n" ++
  "Example of a valid hook:\n" ++
  "```json\n" ++
  "\x7b\n" ++
  "  \"hooks\": \x7b\n" ++
  "    \"SessionStart\": [\n" ++
  "      \x7b\n" ++
  "        \"type\": \"command\",\n" ++
  "        \"command\": \"echo \\\"✓ Session started\\\"\",\n" ++
  "        \"blocking\": false,\n" ++
  "        \"successMessage\": \"Ready to code!\"\n" ++
  "      \x7d\n" ++
  "    ]\n" ++
  "  \x7d\n" ++
  "\x7d\n" ++
  "```\n\n" ++
  "Remove the invalid keys to fix the validation error."

/-- Code-point lexicographic order on character lists: Python's string
comparison used by `sorted`. -/
def charListLe : List Char → List Char → Bool
  | [], _ => true
  | _ :: _, [] => false
  | a :: as, b :: bs => if a = b then charListLe as bs else decide (a < b)

/-- Python string comparison. -/
def strLe (a b : String) : Bool := charListLe a.data b.data

/-- Insert into a sorted list of strings. -/
def insertSorted (x : String) : List String → List String
  | [] => [x]
  | y :: ys => if strLe x y then x :: y :: ys else y :: insertSorted x ys

/-- `sorted` on a list of strings. -/
def sortStrings (l : List String) : List String := l.foldr insertSorted []

/-- `sorted(set(hook_obj.keys()) - VALID_HOOK_KEYS)`: the hook object's
keys outside the allowed set, as a sorted, duplicate-free list. -/
def invalidKeysOf (fields : List (String × Json)) : List String :=
  sortStrings
    (((fields.map Prod.fst).dedup).filter (fun k => !(VALID_HOOK_KEYS.contains k)))

/-- One entry appended to `invalid_hooks` (the Python dict with keys
`hook`, `file`, `invalid_keys`). -/
structure InvalidHookRecord where
  hook : String
  file : String
  invalid_keys : List String
deriving DecidableEq, Repr

/-- The record for one hook object of a hook array, if it carries invalid
keys; non-dict array members are skipped. -/
def hookObjViolation (fileName hook_name : String) (idx : Nat) (hook_obj : Json) :
    Option InvalidHookRecord :=
  match hook_obj with
  | .obj fields =>
    let invalid_keys := invalidKeysOf fields
    if invalid_keys.isEmpty then none
    else some { hook := hook_name ++ "[" ++ toString idx ++ "]",
                file := fileName, invalid_keys := invalid_keys }
  | _ => none

/-- `for idx, hook_obj in enumerate(hook_config)`: the violations collected
from a hook array, indices counted from `idx`. -/
def objsViolations (fileName hook_name : String) (idx : Nat) :
    List Json → List InvalidHookRecord
  | [] => []
  | hook_obj :: rest =>
    match hookObjViolation fileName hook_name idx hook_obj with
    | some rec => rec :: objsViolations fileName hook_name (idx + 1) rest
    | none => objsViolations fileName hook_name (idx + 1) rest

/-- The violations of one named hook entry; a hook config that is not a
list is skipped. -/
def hookEntryViolations (fileName : String) (entry : String × Json) :
    List InvalidHookRecord :=
  match entry.2 with
  | .arr hook_objs => objsViolations fileName entry.1 0 hook_objs
  | _ => []

/-- `for hook_name, hook_config in settings["hooks"].items()`. -/
def entriesViolations (fileName : String) :
    List (String × Json) → List InvalidHookRecord
  | [] => []
  | entry :: rest =>
    hookEntryViolations fileName entry ++ entriesViolations fileName rest

/-- Python dict lookup on parsed JSON object fields. -/
def lookupField (fields : List (String × Json)) (key : String) : Option Json :=
  (fields.find? (fun f => f.1 == key)).map Prod.snd

/-- The hooks map of a parsed settings value: present exactly when the
settings parse to a dict whose "hooks" key holds a dict. Any other shape
contributes nothing (either the guard fails or the subscription raises and
the `except` clause skips the file). -/
def hooksOf (settings : Json) : Option (List (String × Json)) :=
  match settings with
  | .obj fields =>
    match lookupField fields "hooks" with
    | some (.obj hook_map) => some hook_map
    | _ => none
  | _ => none

/-- The violations contributed by one settings file's parsed value. -/
def fileViolations (fileName : String) (settings : Json) :
    List InvalidHookRecord :=
  match hooksOf settings with
  | some hook_map => entriesViolations fileName hook_map
  | none => []

/-- Character scan returning the final path component. -/
def pathNameAux : List Char → List Char → List Char
  | [], acc => acc.reverse
  | c :: rest, acc =>
    if c = '/' then pathNameAux rest [] else pathNameAux rest (c :: acc)

/-- `settings_path.name`: the final component of the path. -/
def pathName (p : String) : String := String.mk (pathNameAux p.data [])

/-- The two settings files, in the checked order. -/
def settings_paths (project_path : String) : List String :=
  [project_path ++ "/.claude/settings.json",
    project_path ++ "/.claude/settings.local.json"]

/-- The outer loop of `check`: a missing file, or one whose read or parse
raises, contributes nothing; the violations of both files accumulate into
one list. -/
def filesViolations (fs : FS) : List String → List InvalidHookRecord
  | [] => []
  | sp :: rest =>
    (match fs.readJson sp with
      | some settings => fileViolations (pathName sp) settings
      | none => []) ++ filesViolations fs rest

/-- The full `invalid_hooks` list of one `check` call. -/
def collectInvalidHooks (fs : FS) (project_path : String) :
    List InvalidHookRecord :=
  filesViolations fs (settings_paths project_path)

/-- `f"  - {item['file']}:{item['hook']} has invalid keys: {keys_str}"`. -/
def violationLine (item : InvalidHookRecord) : String :=
  "  - " ++ item.file ++ ":" ++ item.hook ++ " has invalid keys: " ++
    String.intercalate ", " (item.invalid_keys.map (fun k => "`" ++ k ++ "`"))

/-- The aggregated message enumerating every violation, one line each. -/
def buildMessage (invalid_hooks : List InvalidHookRecord) : String :=
  "Hook configurations contain invalid keys:\n" ++
    String.intercalate "\n" (invalid_hooks.map violationLine)

def suggestion : String :=
  "Remove invalid keys from hook configurations. Only use: command, blocking, successMessage, errorMessage, filePatterns"

/-- `InvalidHookKeysDetector.check`. The `config` argument is unused, as in
the source. -/
def check (fs : FS) (project_path : String) (config : Config) :
    Option HealthIssue :=
  let invalid_hooks := collectInvalidHooks fs project_path
  if invalid_hooks.isEmpty then none
  else some
    { rule_id := rule_id, severity := .warning, title := title,
      message := buildMessage invalid_hooks,
      suggestion := suggestion,
      fix_prompt := some fix_prompt,
      topic_slug := some "hooks-system" }

/-- Claim-side predicate: the parsed settings value has no hook object
carrying a key outside the allowed set. -/
def SettingsOk (settings : Json) : Prop :=
  ∀ hook_map, hooksOf settings = some hook_map →
    ∀ entry ∈ hook_map, ∀ hook_objs, entry.2 = Json.arr hook_objs →
      ∀ obj ∈ hook_objs, ∀ fields, obj = Json.obj fields →
        ∀ k ∈ fields.map Prod.fst, VALID_HOOK_KEYS.contains k = true

lemma insertSorted_ne_nil (x : String) (l : List String) :
    insertSorted x l ≠ [] := by
  cases l with
  | nil => simp [insertSorted]
  | cons y ys =>
    unfold insertSorted
    split <;> simp

lemma sortStrings_eq_nil (l : List String) : sortStrings l = [] ↔ l = [] := by
  cases l with
  | nil => simp [sortStrings]
  | cons x rest =>
    unfold sortStrings
    rw [List.foldr_cons]
    exact iff_of_false (insertSorted_ne_nil x _) (by simp)

lemma invalidKeysOf_eq_nil (fields : List (String × Json)) :
    invalidKeysOf fields = [] ↔
      ∀ k ∈ fields.map Prod.fst, VALID_HOOK_KEYS.contains k = true := by
  unfold invalidKeysOf
  rw [sortStrings_eq_nil, List.filter_eq_nil_iff]
  constructor
  · intro h k hk
    have hmem := h k (List.mem_dedup.mpr hk)
    simpa using hmem
  · intro h k hk
    have hc := h k (List.mem_dedup.mp hk)
    simp
    simpa using hc

lemma hookObjViolation_eq_none (fileName hook_name : String) (idx : Nat)
    (hook_obj : Json) :
    hookObjViolation fileName hook_name idx hook_obj = none ↔
      ∀ fields, hook_obj = Json.obj fields → invalidKeysOf fields = [] := by
  cases hook_obj <;> simp [hookObjViolation, List.isEmpty_iff]

lemma objsViolations_eq_nil (fileName hook_name : String) (idx : Nat)
    (objs : List Json) :
    objsViolations fileName hook_name idx objs = [] ↔
      ∀ obj ∈ objs, ∀ fields, obj = Json.obj fields →
        invalidKeysOf fields = [] := by
  induction objs generalizing idx with
  | nil => simp [objsViolations]
  | cons obj rest ih =>
    unfold objsViolations
    cases hv : hookObjViolation fileName hook_name idx obj with
    | some r =>
      refine iff_of_false (by simp) ?_
      intro hall
      have hnone : hookObjViolation fileName hook_name idx obj = none :=
        (hookObjViolation_eq_none fileName hook_name idx obj).mpr
          (fun fields hf => hall obj (List.mem_cons_self obj rest) fields hf)
      rw [hv] at hnone
      exact Option.noConfusion hnone
    | none =>
      have hnone := (hookObjViolation_eq_none fileName hook_name idx obj).mp hv
      rw [ih (idx + 1)]
      constructor
      · intro h o ho fields hf
        rcases List.mem_cons.mp ho with rfl | ho'
        · exact hnone fields hf
        · exact h o ho' fields hf
      · intro h o ho fields hf
        exact h o (List.mem_cons_of_mem obj ho) fields hf

lemma hookEntryViolations_eq_nil (fileName : String) (entry : String × Json) :
    hookEntryViolations fileName entry = [] ↔
      ∀ hook_objs, entry.2 = Json.arr hook_objs →
        ∀ obj ∈ hook_objs, ∀ fields, obj = Json.obj fields →
          invalidKeysOf fields = [] := by
  obtain ⟨hook_name, cfg⟩ := entry
  cases cfg <;> simp [hookEntryViolations, objsViolations_eq_nil]

lemma entriesViolations_eq_nil (fileName : String)
    (entries : List (String × Json)) :
    entriesViolations fileName entries = [] ↔
      ∀ entry ∈ entries, ∀ hook_objs, entry.2 = Json.arr hook_objs →
        ∀ obj ∈ hook_objs, ∀ fields, obj = Json.obj fields →
          invalidKeysOf fields = [] := by
  induction entries with
  | nil => simp [entriesViolations]
  | cons entry rest ih =>
    unfold entriesViolations
    rw [List.append_eq_nil, ih, hookEntryViolations_eq_nil]
    constructor
    · rintro ⟨h1, h2⟩ e he
      rcases List.mem_cons.mp he with rfl | he'
      · exact h1
      · exact h2 e he'
    · intro h
      exact ⟨h entry (List.mem_cons_self entry rest),
        fun e he => h e (List.mem_cons_of_mem entry he)⟩

lemma fileViolations_eq_nil (fileName : String) (settings : Json) :
    fileViolations fileName settings = [] ↔ SettingsOk settings := by
  unfold fileViolations SettingsOk
  cases hh : hooksOf settings with
  | none => simp
  | some hook_map =>
    simp only [Option.some.injEq]
    rw [entriesViolations_eq_nil]
    constructor
    · intro h hm hhm
      subst hhm
      intro entry he hook_objs harr obj ho fields hf k hk
      exact (invalidKeysOf_eq_nil fields).mp (h entry he hook_objs harr obj ho fields hf) k hk
    · intro h entry he hook_objs harr obj ho fields hf
      exact (invalidKeysOf_eq_nil fields).mpr
        (h hook_map rfl entry he hook_objs harr obj ho fields hf)

lemma filesViolations_eq_nil (fs : FS) (sps : List String) :
    filesViolations fs sps = [] ↔
      ∀ sp ∈ sps, ∀ settings, fs.readJson sp = some settings →
        SettingsOk settings := by
  induction sps with
  | nil => simp [filesViolations]
  | cons sp rest ih =>
    unfold filesViolations
    rw [List.append_eq_nil, ih]
    cases hr : fs.readJson sp with
    | none =>
      constructor
      · rintro ⟨_, h2⟩ q hq settings hs
        rcases List.mem_cons.mp hq with rfl | hq'
        · rw [hr] at hs; exact Option.noConfusion hs
        · exact h2 q hq' settings hs
      · intro h
        exact ⟨rfl, fun q hq settings hs => h q (List.mem_cons_of_mem sp hq) settings hs⟩
    | some settings =>
      rw [fileViolations_eq_nil]
      constructor
      · rintro ⟨h1, h2⟩ q hq s hs
        rcases List.mem_cons.mp hq with rfl | hq'
        · rw [hr] at hs
          cases hs
          exact h1
        · exact h2 q hq' s hs
      · intro h
        exact ⟨h sp (List.mem_cons_self sp rest) settings hr,
          fun q hq s hs => h q (List.mem_cons_of_mem sp hq) s hs⟩

end InvalidHookKeysDetector

/-- C5: `InvalidHookKeysDetector.check` returns absent iff no hook object of
either settings file carries a key outside the allowed set; when violations
exist it returns exactly one WARNING issue whose message enumerates, one
line per violating hook object, every violation across all entries of both
files. -/
theorem invalid_hook_keys_aggregation (fs : FS) (project_path : String)
    (config : Config) :
    (InvalidHookKeysDetector.check fs project_path config = none ↔
      ∀ sp ∈ InvalidHookKeysDetector.settings_paths project_path,
        ∀ settings, fs.readJson sp = some settings →
          InvalidHookKeysDetector.SettingsOk settings) ∧
    (∀ issue, InvalidHookKeysDetector.check fs project_path config = some issue →
      issue.severity = Severity.warning ∧
      issue.message =
        "Hook configurations contain invalid keys:\n" ++
          String.intercalate "\n"
            ((InvalidHookKeysDetector.collectInvalidHooks fs project_path).map
              InvalidHookKeysDetector.violationLine)) := by
  constructor
  · have hiff : InvalidHookKeysDetector.check fs project_path config = none ↔
        InvalidHookKeysDetector.collectInvalidHooks fs project_path = [] := by
      unfold InvalidHookKeysDetector.check
      by_cases h :
          (InvalidHookKeysDetector.collectInvalidHooks fs project_path).isEmpty = true
      · simp only [h, if_true]
        exact iff_of_true trivial (List.isEmpty_iff.mp h)
      · rw [if_neg h]
        exact iff_of_false (fun he => Option.noConfusion he)
          (fun he => h (List.isEmpty_iff.mpr he))
    rw [hiff]
    exact InvalidHookKeysDetector.filesViolations_eq_nil fs
      (InvalidHookKeysDetector.settings_paths project_path)
  · intro issue h
    unfold InvalidHookKeysDetector.check at h
    by_cases hemp :
        (InvalidHookKeysDetector.collectInvalidHooks fs project_path).isEmpty = true
    · rw [if_pos hemp] at h
      exact Option.noConfusion h
    · rw [if_neg hemp] at h
      cases h
      exact ⟨rfl, rfl⟩

/-- A settings file with two hook entries, each carrying one (different)
disallowed key. -/
def hookSettingsJson : Json :=
  Json.obj [("hooks", Json.obj
    [("SessionStart", Json.arr [Json.obj
        [("type", Json.str "command"),
          ("command", Json.str "echo hi"),
          ("outputMode", Json.str "verbose")]]),
      ("PostToolUse", Json.arr [Json.obj
        [("type", Json.str "command"),
          ("command", Json.str "fmt"),
          ("enabled", Json.bool true)]])])]

def hookFS : FS :=
  { entries := [("/proj/.claude/settings.json", FileData.jsonData hookSettingsJson)] }

/-- The single issue `check` produces on `hookFS`. -/
def hookIssue : HealthIssue :=
  { rule_id := InvalidHookKeysDetector.rule_id, severity := .warning,
    title := InvalidHookKeysDetector.title,
    message := InvalidHookKeysDetector.buildMessage
      (InvalidHookKeysDetector.collectInvalidHooks hookFS "/proj"),
    suggestion := InvalidHookKeysDetector.suggestion,
    fix_prompt := some InvalidHookKeysDetector.fix_prompt,
    topic_slug := some "hooks-system" }

/-- Witness for C5: on a settings file with two violating hook entries the
detector returns the one WARNING issue whose message enumerates both. -/
theorem invalid_hook_keys_aggregation_witness :
    hookIssue.severity = Severity.warning ∧
    hookIssue.message =
      "Hook configurations contain invalid keys:\n" ++
        String.intercalate "\n"
          ((InvalidHookKeysDetector.collectInvalidHooks hookFS "/proj").map
            InvalidHookKeysDetector.violationLine) :=
  (invalid_hook_keys_aggregation hookFS "/proj" []).2 hookIssue rfl

end C3Health
